import Mathlib

/-!
# Verification of the rate limiter core (`src/lib/rateLimiter.ts`, `src/lib/redis.ts`)

A shallow embedding of the fixed-window rate limiter. The external stores
(Redis counters, the rules cache) are modelled as explicit state records, and
the fallible adapter calls (`incrementCounter`, the rule fetch) as `Except`
computations; `Date.now()` (milliseconds) is passed explicitly. All number
arithmetic follows the JavaScript source: counts are naturals (Redis INCR),
rule limits are integers, `Math.max(0, limit - count)` is integer `max`.
-/

namespace RateLimiter

/-- `RuleType` from `src/lib/db.ts`: `'GENERAL' | 'IP' | 'API'`. -/
inductive RuleType where
  | GENERAL
  | IP
  | API
deriving DecidableEq, Repr

/-- String form of a rule type, as interpolated into the Redis key. -/
def ruleTypeStr : RuleType → String
  | .GENERAL => "GENERAL"
  | .IP => "IP"
  | .API => "API"

/-- `RateLimitRule` from `src/lib/db.ts` (the fields the evaluator reads). -/
structure RateLimitRule where
  rule_type : RuleType
  limit : Int
  window_seconds : Nat
  api_pattern : Option String
deriving DecidableEq, Repr

/-- `RateLimitResult` from `src/lib/rateLimiter.ts`. -/
structure RateLimitResult where
  allowed : Bool
  limit : Option Int := none
  remaining : Option Int := none
  resetTime : Option Nat := none
  message : Option String := none
deriving DecidableEq, Repr

/-- The Redis key/value store: per-key counters (absent keys read 0, as INCR
treats a missing key) and per-key expiry as last set by EXPIRE. -/
structure RedisState where
  counters : String → Nat
  expiry : String → Option Nat

/-- `incrementCounter` from `src/lib/redis.ts`: `INCR key`, then
`EXPIRE key ttl` only when the post-increment count is 1. Returns the
post-increment count and the updated store. -/
def incrementCounter (key : String) (ttl : Nat) (s : RedisState) :
    Nat × RedisState :=
  let count := s.counters key + 1
  let counters' := fun k => if k = key then count else s.counters k
  let expiry' :=
    if count = 1 then (fun k => if k = key then some ttl else s.expiry k)
    else s.expiry
  (count, { counters := counters', expiry := expiry' })

/-- Ambient inputs of one evaluation: `Date.now()` in milliseconds, and
whether the Redis store is unreachable (every call then throws). -/
structure Env where
  nowMs : Nat
  redisFail : Bool

/-- The fallible adapter call: `await incrementCounter(key, ttl)` throws when
Redis is unreachable, otherwise increments and returns the count. -/
def incrementCounterE (env : Env) (key : String) (ttl : Nat) (s : RedisState) :
    Except String (Nat × RedisState) :=
  if env.redisFail then .error "Redis unavailable"
  else .ok (incrementCounter key ttl s)

/-- `getCurrentWindow` from `src/lib/rateLimiter.ts`:
`Math.floor(Date.now() / 1000 / windowSeconds)`. Nested real-division floors
coincide with nested natural division. -/
def getCurrentWindow (nowMs : Nat) (windowSeconds : Nat) : Nat :=
  nowMs / 1000 / windowSeconds

/-- JavaScript truthiness of an optional string (`undefined`/`null` and `""`
are falsy): used by `!apiUrl` and `rule.api_pattern &&` in the source. -/
def optTruthy : Option String → Bool
  | none => false
  | some s => !s.isEmpty

/-- The ECMAScript LineTerminator set: without the dotAll flag — which
`matchesPattern` does not pass — the regex atom `.` matches every character
except U+000A, U+000D, U+2028 and U+2029. -/
def isLineTerminator (c : Char) : Bool :=
  c == '\n' || c == '\r' || c == '\u2028' || c == '\u2029'

/-- Denotation of the regular expression built by `matchesPattern` in
`src/lib/rateLimiter.ts`: the pattern string has every regex metacharacter
escaped (so it is literal) and every `*` turned into `.*`, is anchored with
`^...$`, and is applied case-insensitively (flag `i`, not `s` or `m`). That
regex matches exactly the anchored case-insensitive glob relation computed
here: a literal pattern character consumes one equal-up-to-case target
character, and `*` (compiled to `.*` with `.` excluding line terminators)
consumes any possibly empty run of non-line-terminator characters. -/
def globMatch : List Char → List Char → Bool
  | [], [] => true
  | [], _ :: _ => false
  | '*' :: ps, [] => globMatch ps []
  | '*' :: ps, c :: cs =>
    globMatch ps (c :: cs)
      || (!isLineTerminator c && globMatch ('*' :: ps) cs)
  | _ :: _, [] => false
  | p :: ps, c :: cs => (p.toLower = c.toLower) && globMatch ps cs
termination_by ps cs => (ps.length, cs.length)

/-- `matchesPattern(url, pattern)` from `src/lib/rateLimiter.ts`. -/
def matchesPattern (url pattern : String) : Bool :=
  globMatch pattern.data url.data

/-- The matching relation asserted by the original claim: the entire target
equals the pattern with each `*` replaced by some possibly-empty run of
arbitrary characters (line terminators included), all other characters
compared literally up to case. The program refutes this reading. -/
inductive MatchesSpec : List Char → List Char → Prop where
  | nil : MatchesSpec [] []
  | lit {p ps c cs} : p ≠ '*' → p.toLower = c.toLower →
      MatchesSpec ps cs → MatchesSpec (p :: ps) (c :: cs)
  | star {ps run cs} : MatchesSpec ps cs → MatchesSpec ('*' :: ps) (run ++ cs)

/-- The matching relation of the JavaScript regex actually built by the
source: as `MatchesSpec`, except that the run substituted for a `*` may not
contain a line terminator (the compiled `.*` without dotAll). -/
inductive MatchesSpecJS : List Char → List Char → Prop where
  | nil : MatchesSpecJS [] []
  | lit {p ps c cs} : p ≠ '*' → p.toLower = c.toLower →
      MatchesSpecJS ps cs → MatchesSpecJS (p :: ps) (c :: cs)
  | star {ps run cs} : (∀ c ∈ run, isLineTerminator c = false) →
      MatchesSpecJS ps cs → MatchesSpecJS ('*' :: ps) (run ++ cs)

/-- The scope identifier chosen in `checkRule`'s `switch (rule.rule_type)`:
`'general'` for GENERAL, the caller's IP address for IP, and
`apiUrl || 'unknown'` for API. -/
def ruleIdentifier (rt : RuleType) (ipAddress : String)
    (apiUrl : Option String) : String :=
  match rt with
  | .GENERAL => "general"
  | .IP => ipAddress
  | .API => match apiUrl with
    | some s => if s.isEmpty then "unknown" else s
    | none => "unknown"

/-- The Redis key built in `checkRule`:
`rate_limit:${tenantId}:${rule.rule_type}:${identifier}:${window}`. -/
def redisKey (tenantId : String) (rt : RuleType) (identifier : String)
    (window : Nat) : String :=
  "rate_limit:" ++ tenantId ++ ":" ++ ruleTypeStr rt ++ ":" ++ identifier
    ++ ":" ++ toString window

/-- The denial message built in `checkRule`. -/
def exceededMessage (rule : RateLimitRule) : String :=
  "Rate limit exceeded for " ++ ruleTypeStr rule.rule_type ++ " rule. Limit: "
    ++ toString rule.limit ++ " requests per " ++ toString rule.window_seconds
    ++ "s"

/-- `checkRule` from `src/lib/rateLimiter.ts`: compute the window index and
scope identifier, increment the Redis counter for the composite key with
TTL = the rule's window length, and compare the post-increment count against
the rule's limit. -/
def checkRule (env : Env) (rule : RateLimitRule) (tenantId ipAddress : String)
    (apiUrl : Option String) (s : RedisState) :
    Except String (RateLimitResult × RedisState) :=
  let window := getCurrentWindow env.nowMs rule.window_seconds
  let identifier := ruleIdentifier rule.rule_type ipAddress apiUrl
  let key := redisKey tenantId rule.rule_type identifier window
  match incrementCounterE env key rule.window_seconds s with
  | .error e => .error e
  | .ok (count, s') =>
    let allowed : Bool := (count : Int) ≤ rule.limit
    let remaining : Int := max 0 (rule.limit - (count : Int))
    let resetTime : Nat := (window + 1) * rule.window_seconds
    if allowed then
      .ok ({ allowed := true, limit := some rule.limit,
             remaining := some remaining, resetTime := some resetTime }, s')
    else
      .ok ({ allowed := false, limit := some rule.limit,
             remaining := some remaining, resetTime := some resetTime,
             message := some (exceededMessage rule) }, s')

/-- The `continue` conditions of the rule loop in `checkRateLimit`: an API
rule is skipped when no (truthy) apiUrl was provided, or when the rule has a
truthy pattern that the apiUrl does not match. -/
def skipRule (rule : RateLimitRule) (apiUrl : Option String) : Bool :=
  match rule.rule_type with
  | .API =>
    if !optTruthy apiUrl then true
    else match rule.api_pattern with
      | some pat =>
        if pat.isEmpty then false
        else !matchesPattern (apiUrl.getD "") pat
      | none => false
  | _ => false

/-- The iteration order of the nested loops in `checkRateLimit`: for each
rule type in `['GENERAL', 'IP', 'API']`, the tenant's rules filtered to that
type, in their stored order. -/
def orderedRules (rules : List RateLimitRule) : List RateLimitRule :=
  rules.filter (fun r => r.rule_type = RuleType.GENERAL)
    ++ rules.filter (fun r => r.rule_type = RuleType.IP)
    ++ rules.filter (fun r => r.rule_type = RuleType.API)

/-- The body of the rule loop in `checkRateLimit`: skip inapplicable rules,
check the rest in order, returning the first denial immediately. -/
def checkRulesList (env : Env) (tenantId ipAddress : String)
    (apiUrl : Option String) :
    List RateLimitRule → RedisState → Except String (RateLimitResult × RedisState)
  | [], s => .ok ({ allowed := true }, s)
  | rule :: rest, s =>
    if skipRule rule apiUrl then
      checkRulesList env tenantId ipAddress apiUrl rest s
    else
      match checkRule env rule tenantId ipAddress apiUrl s with
      | .error e => .error e
      | .ok (result, s') =>
        if result.allowed then
          checkRulesList env tenantId ipAddress apiUrl rest s'
        else
          .ok (result, s')

/-- The body of `checkRateLimit`'s `try` block. `loadResult` is the outcome
of `await this.loadRulesForTenant(tenantId)` (an `Except` because the
database fetch can throw). -/
def checkRateLimitE (env : Env)
    (loadResult : Except String (List RateLimitRule))
    (tenantId ipAddress : String) (apiUrl : Option String) (s : RedisState) :
    Except String (RateLimitResult × RedisState) :=
  match loadResult with
  | .error e => .error e
  | .ok rules =>
    if rules.isEmpty then .ok ({ allowed := true }, s)
    else checkRulesList env tenantId ipAddress apiUrl (orderedRules rules) s

/-- The fail-open decision built in `checkRateLimit`'s `catch` block. -/
def failOpenResult : RateLimitResult :=
  { allowed := true, message := some "Rate limiter error, allowing request" }

/-- `checkRateLimit` from `src/lib/rateLimiter.ts`: the `try` body with any
error converted to the fail-open decision (the Redis state is unchanged by a
failed call). -/
def checkRateLimit (env : Env)
    (loadResult : Except String (List RateLimitRule))
    (tenantId ipAddress : String) (apiUrl : Option String) (s : RedisState) :
    RateLimitResult × RedisState :=
  match checkRateLimitE env loadResult tenantId ipAddress apiUrl s with
  | .ok r => r
  | .error _ => (failOpenResult, s)

/-- `CACHE_TTL` from the `RateLimiter` class: one minute, in the
milliseconds of `Date.now()`. -/
def CACHE_TTL : Nat := 60000

/-- The two private maps of the `RateLimiter` class: `rulesCache` and
`cacheExpiry`, keyed by tenant id. -/
structure CacheState where
  rulesCache : String → Option (List RateLimitRule)
  cacheExpiry : String → Option Nat

/-- The cache state after the fetch branch of `loadRulesForTenant`: both
maps gain an entry for the tenant, the expiry being `now + CACHE_TTL`. -/
def refreshedCache (fetch : String → List RateLimitRule) (now : Nat)
    (tenantId : String) (st : CacheState) : CacheState :=
  { rulesCache := fun k => if k = tenantId then some (fetch tenantId)
      else st.rulesCache k,
    cacheExpiry := fun k => if k = tenantId then some (now + CACHE_TTL)
      else st.cacheExpiry k }

/-- `loadRulesForTenant` from `src/lib/rateLimiter.ts`. `fetch` is the
database query's row list; `now` is `Date.now()` in milliseconds. The source
guard is `expiry && expiry > now && rulesCache.has(key)`; since `now : Nat`,
`expiry > now` already implies `expiry ≠ 0`, so the truthiness conjunct is
`now < e`. The returned boolean records whether the database was consulted
(one query in the fetch branch, none on a cache hit). -/
def loadRulesForTenant (fetch : String → List RateLimitRule) (now : Nat)
    (tenantId : String) (st : CacheState) :
    List RateLimitRule × CacheState × Bool :=
  let hit :=
    match st.cacheExpiry tenantId with
    | some e => decide (now < e) && (st.rulesCache tenantId).isSome
    | none => false
  if hit then ((st.rulesCache tenantId).getD [], st, false)
  else (fetch tenantId, refreshedCache fetch now tenantId st, true)

/-- `clearCache` from `src/lib/rateLimiter.ts`: both maps are cleared. -/
def clearCache (_st : CacheState) : CacheState :=
  { rulesCache := fun _ => none, cacheExpiry := fun _ => none }

/-- An empty Redis store: no counters, no expiries. -/
def freshStore : RedisState :=
  { counters := fun _ => 0, expiry := fun _ => none }

/-- The full Redis key `checkRule` builds for a rule under the given
request: tenant, the rule kind, the kind's scope identifier, and the window
index of the rule's window length at the current time. -/
def checkRuleKey (env : Env) (tenantId ipAddress : String)
    (apiUrl : Option String) (rule : RateLimitRule) : String :=
  redisKey tenantId rule.rule_type
    (ruleIdentifier rule.rule_type ipAddress apiUrl)
    (getCurrentWindow env.nowMs rule.window_seconds)

lemma MatchesSpecJS.star_cons {ps : List Char} {c : Char} {cs : List Char}
    (h : MatchesSpecJS ('*' :: ps) cs) (hc : isLineTerminator c = false) :
    MatchesSpecJS ('*' :: ps) (c :: cs) := by
  cases h with
  | lit hne => exact absurd rfl hne
  | star hrun h' =>
    refine (List.cons_append _ _ _) ▸ MatchesSpecJS.star ?_ h'
    intro x hx
    rcases List.mem_cons.mp hx with hx | hx
    · exact hx ▸ hc
    · exact hrun x hx

lemma globMatch_sound (ps cs : List Char) (h : globMatch ps cs = true) :
    MatchesSpecJS ps cs := by
  induction ps, cs using globMatch.induct with
  | case1 => exact .nil
  | case2 c cs => simp [globMatch] at h
  | case3 ps ih =>
    rw [globMatch] at h
    exact @MatchesSpecJS.star ps [] [] (by simp) (ih h)
  | case4 ps c cs ih1 ih2 =>
    rw [globMatch] at h
    rcases Bool.or_eq_true_iff.mp h with h1 | h2
    · exact @MatchesSpecJS.star ps [] (c :: cs) (by simp) (ih1 h1)
    · simp only [Bool.and_eq_true] at h2
      rcases h2 with ⟨hc, hrec⟩
      exact (ih2 hrec).star_cons (by simpa using hc)
  | case5 p ps hne => simp [globMatch] at h
  | case6 p ps c cs hne ih =>
    simp only [globMatch, hne, Bool.and_eq_true, decide_eq_true_eq] at h
    exact .lit hne h.1 (ih h.2)

lemma globMatch_complete (ps cs : List Char) (h : MatchesSpecJS ps cs) :
    globMatch ps cs = true := by
  induction h with
  | nil => rw [globMatch]
  | lit hne heq _ ih =>
    simp only [globMatch, hne, Bool.and_eq_true, decide_eq_true_eq]
    exact ⟨heq, ih⟩
  | star hrun h ih =>
    rename_i ps run cs
    revert hrun
    induction run with
    | nil =>
      intro hrun
      simp only [List.nil_append]
      cases cs with
      | nil => rw [globMatch]; exact ih
      | cons c cs' => rw [globMatch]; simp [ih]
    | cons r run' ihr =>
      intro hrun
      simp only [List.cons_append]
      rw [globMatch]
      have hr : isLineTerminator r = false := hrun r (List.mem_cons_self r run')
      have htail := ihr fun x hx => hrun x (List.mem_cons_of_mem r hx)
      simp [hr, htail]

/-- Keys built for a GENERAL rule and for an IP rule never coincide: after
the shared `rate_limit:{tenantId}:` prefix one continues with `GENERAL`, the
other with `IP`. -/
lemma redisKey_general_ne_ip (t id1 id2 : String) (w1 w2 : Nat) :
    redisKey t .GENERAL id1 w1 ≠ redisKey t .IP id2 w2 := by
  intro h
  have h' := congrArg String.data h
  simp [redisKey, ruleTypeStr, String.data_append] at h'

/-- For a fixed tenant and window, the IP-scoped key determines the IP. -/
lemma redisKey_ip_inj {t ip1 ip2 : String} {w : Nat}
    (h : redisKey t .IP ip1 w = redisKey t .IP ip2 w) : ip1 = ip2 := by
  have h' := congrArg String.data h
  simp [redisKey, ruleTypeStr, String.data_append] at h'
  exact String.ext h'

/-- C9: `incrementCounter(key, ttl)` increments the counter under `key` by
exactly 1 and returns the post-increment value; other counters are
untouched; the key's expiry is set to `ttl` exactly when the post-increment
value is 1 (first increment of a fresh window), and the expiry map is
untouched otherwise. -/
theorem C9_incrementCounter_spec (key : String) (ttl : Nat) (s : RedisState) :
    (incrementCounter key ttl s).1 = s.counters key + 1 ∧
    (incrementCounter key ttl s).2.counters key = s.counters key + 1 ∧
    (∀ k, k ≠ key → (incrementCounter key ttl s).2.counters k = s.counters k) ∧
    ((incrementCounter key ttl s).1 = 1 →
      (incrementCounter key ttl s).2.expiry key = some ttl) ∧
    ((incrementCounter key ttl s).1 ≠ 1 →
      (incrementCounter key ttl s).2.expiry = s.expiry) := by
  refine ⟨rfl, by simp [incrementCounter], fun k hk => by simp [incrementCounter, hk], ?_, ?_⟩
  · intro h1
    simp only [incrementCounter] at h1 ⊢
    simp [h1]
  · intro h1
    simp only [incrementCounter] at h1 ⊢
    simp [h1]

/-- Witness for C9: on a fresh store the first increment returns 1 and sets
the expiry; a later increment leaves other keys unchanged. -/
theorem C9_incrementCounter_spec_witness :
    (incrementCounter "k" 7 freshStore).2.expiry "k" = some 7 ∧
    (incrementCounter "k" 7 freshStore).2.counters "other" = 0 := by
  refine ⟨(C9_incrementCounter_spec "k" 7 freshStore).2.2.2.1 (by decide), ?_⟩
  have h := (C9_incrementCounter_spec "k" 7 freshStore).2.2.1 "other" (by decide)
  simpa [freshStore] using h

/-- C6 counterexample: with `W = 60`, epoch 100 (ms 100000) is in window 1
but epoch 159 is in window 2 — they do not share a window, and epoch 161
shares window 2 with epoch 159 instead of being in the next one. -/
theorem C6_counterexample :
    getCurrentWindow 100000 60 = 1 ∧ getCurrentWindow 159000 60 = 2 ∧
    getCurrentWindow 100000 60 ≠ getCurrentWindow 159000 60 ∧
    getCurrentWindow 161000 60 = getCurrentWindow 159000 60 := by
  decide

/-- C6 (amended): the window index computed from `Date.now()` milliseconds
equals `floor(epoch_seconds / W)`, and two times fall in the same window
index iff they lie in the same `W`-second-aligned interval since the epoch;
epochs 100 and 119 share a window at `W = 60` while epoch 121 is in the
next one. -/
theorem C6_window_index (W : Nat) (hW : 0 < W) :
    (∀ nowMs : Nat, getCurrentWindow nowMs W = nowMs / 1000 / W) ∧
    (∀ m1 m2 : Nat, getCurrentWindow m1 W = getCurrentWindow m2 W ↔
      ∃ k : Nat, (k * W ≤ m1 / 1000 ∧ m1 / 1000 < (k + 1) * W) ∧
        (k * W ≤ m2 / 1000 ∧ m2 / 1000 < (k + 1) * W)) ∧
    getCurrentWindow 100000 60 = getCurrentWindow 119000 60 ∧
    getCurrentWindow 121000 60 = getCurrentWindow 119000 60 + 1 := by
  have bound : ∀ m : Nat, m / 1000 < (m / 1000 / W + 1) * W := by
    intro m
    have h1 := Nat.div_add_mod (m / 1000) W
    have h2 := Nat.mod_lt (m / 1000) hW
    have h3 : (m / 1000 / W + 1) * W = W * (m / 1000 / W) + W := by ring
    omega
  refine ⟨fun _ => rfl, fun m1 m2 => ?_, by decide, by decide⟩
  unfold getCurrentWindow
  constructor
  · intro h
    refine ⟨m1 / 1000 / W, ⟨Nat.div_mul_le_self _ _, bound m1⟩, ⟨?_, ?_⟩⟩
    · rw [h]; exact Nat.div_mul_le_self _ _
    · rw [h]; exact bound m2
  · rintro ⟨k, ⟨h1a, h1b⟩, h2a, h2b⟩
    rw [Nat.div_eq_of_lt_le h1a h1b, Nat.div_eq_of_lt_le h2a h2b]

/-- Witness for C6 at `W = 60`. -/
theorem C6_window_index_witness :
    getCurrentWindow 100000 60 = 100000 / 1000 / 60 :=
  (C6_window_index 60 (by decide)).1 100000

/-- C5 counterexample: the claim reads `*` as any run of characters, but
the compiled regex `.*` (no dotAll flag) rejects line terminators: the
target `a\nb` is the pattern `a*b` with `*` replaced by the run `\n`, yet
`matchesPattern` returns false on it. -/
theorem C5_counterexample :
    matchesPattern "a\nb" "a*b" = false ∧
    MatchesSpec ("a*b".data) ("a\nb".data) := by
  constructor
  · simp [matchesPattern, globMatch, isLineTerminator]
  · have h1 : MatchesSpec ['b'] ['b'] :=
      MatchesSpec.lit (by decide) rfl MatchesSpec.nil
    have h2 : MatchesSpec ['*', 'b'] ['\n', 'b'] :=
      @MatchesSpec.star ['b'] ['\n'] ['b'] h1
    exact MatchesSpec.lit (by decide) rfl h2

/-- C5 (amended): `matchesPattern` decides exactly the anchored,
case-insensitive glob relation in which the pattern is literal except `*`,
and `*` stands for any possibly empty run of non-line-terminator characters
(the compiled `.*` has no dotAll flag); it behaves as required on the
spec's examples. -/
theorem C5_matchesPattern_spec :
    (∀ url pattern : String,
      matchesPattern url pattern = true ↔
        MatchesSpecJS pattern.data url.data) ∧
    matchesPattern "/api/users/42" "/api/users/*" = true ∧
    matchesPattern "/api/users/" "/api/users/*" = true ∧
    matchesPattern "/api/orders/1" "/api/users/*" = false ∧
    matchesPattern "/API/Users/42" "/api/users/*" = true := by
  refine ⟨fun url pattern => ⟨globMatch_sound _ _, globMatch_complete _ _⟩,
    ?_, ?_, ?_, ?_⟩ <;> simp [matchesPattern, globMatch, isLineTerminator]

/-- The denial branch of `checkRule`, as one equation: when the
post-increment count strictly exceeds the limit, the call returns the
denial record and the store incremented at the rule's key. -/
lemma checkRule_denies (env : Env) (rule : RateLimitRule)
    (tenantId ipAddress : String) (apiUrl : Option String) (s : RedisState)
    (hfail : env.redisFail = false)
    (hlt : rule.limit < ((s.counters (redisKey tenantId rule.rule_type
      (ruleIdentifier rule.rule_type ipAddress apiUrl)
      (getCurrentWindow env.nowMs rule.window_seconds)) + 1 : Nat) : Int)) :
    checkRule env rule tenantId ipAddress apiUrl s =
      .ok ({ allowed := false, limit := some rule.limit,
             remaining := some 0,
             resetTime := some ((getCurrentWindow env.nowMs
               rule.window_seconds + 1) * rule.window_seconds),
             message := some (exceededMessage rule) },
           (incrementCounter (redisKey tenantId rule.rule_type
             (ruleIdentifier rule.rule_type ipAddress apiUrl)
             (getCurrentWindow env.nowMs rule.window_seconds))
             rule.window_seconds s).2) := by
  have hnle : ¬ (((s.counters (redisKey tenantId rule.rule_type
      (ruleIdentifier rule.rule_type ipAddress apiUrl)
      (getCurrentWindow env.nowMs rule.window_seconds)) : Nat) : Int) + 1
        ≤ rule.limit) := by omega
  have hrem : max 0 (rule.limit - (((s.counters (redisKey tenantId
      rule.rule_type (ruleIdentifier rule.rule_type ipAddress apiUrl)
      (getCurrentWindow env.nowMs rule.window_seconds)) : Nat) : Int) + 1))
        = 0 := max_eq_left (by omega)
  simp only [checkRule, incrementCounterE, hfail, Bool.false_eq_true,
    if_false, incrementCounter]
  simp [hnle, hrem]

/-- The pass branch of `checkRule`, as one equation: when the
post-increment count is within the limit, the call returns the allow record
(with the rule's figures) and the store incremented at the rule's key. -/
lemma checkRule_passes (env : Env) (rule : RateLimitRule)
    (tenantId ipAddress : String) (apiUrl : Option String) (s : RedisState)
    (hfail : env.redisFail = false)
    (hle : ((s.counters (redisKey tenantId rule.rule_type
      (ruleIdentifier rule.rule_type ipAddress apiUrl)
      (getCurrentWindow env.nowMs rule.window_seconds)) + 1 : Nat) : Int)
        ≤ rule.limit) :
    checkRule env rule tenantId ipAddress apiUrl s =
      .ok ({ allowed := true, limit := some rule.limit,
             remaining := some (max 0 (rule.limit
               - ((s.counters (redisKey tenantId rule.rule_type
                 (ruleIdentifier rule.rule_type ipAddress apiUrl)
                 (getCurrentWindow env.nowMs rule.window_seconds))
                 + 1 : Nat) : Int))),
             resetTime := some ((getCurrentWindow env.nowMs
               rule.window_seconds + 1) * rule.window_seconds) },
           (incrementCounter (redisKey tenantId rule.rule_type
             (ruleIdentifier rule.rule_type ipAddress apiUrl)
             (getCurrentWindow env.nowMs rule.window_seconds))
             rule.window_seconds s).2) := by
  have hle' : ((s.counters (redisKey tenantId rule.rule_type
      (ruleIdentifier rule.rule_type ipAddress apiUrl)
      (getCurrentWindow env.nowMs rule.window_seconds)) : Nat) : Int) + 1
        ≤ rule.limit := by omega
  simp only [checkRule, incrementCounterE, hfail, Bool.false_eq_true,
    if_false, incrementCounter]
  simp [hle']

/-- C2: for an applicable rule, when the post-increment count exceeds the
rule's limit `checkRule` denies with limit = the rule's limit,
remaining = 0, resetTime = (window index + 1) × window length, and the
message naming the rule kind, limit and window; when the count is within
the limit the rule passes (`allowed = true`). -/
theorem C2_checkRule_limit (env : Env) (rule : RateLimitRule)
    (tenantId ipAddress : String) (apiUrl : Option String) (s : RedisState)
    (window : Nat) (key : String) (count : Nat)
    (hfail : env.redisFail = false)
    (hwindow : window = getCurrentWindow env.nowMs rule.window_seconds)
    (hkey : key = redisKey tenantId rule.rule_type
      (ruleIdentifier rule.rule_type ipAddress apiUrl) window)
    (hcount : count = s.counters key + 1) :
    (rule.limit < (count : Int) →
      checkRule env rule tenantId ipAddress apiUrl s =
        .ok ({ allowed := false, limit := some rule.limit,
               remaining := some 0,
               resetTime := some ((window + 1) * rule.window_seconds),
               message := some (exceededMessage rule) },
             (incrementCounter key rule.window_seconds s).2)) ∧
    ((count : Int) ≤ rule.limit →
      checkRule env rule tenantId ipAddress apiUrl s =
        .ok ({ allowed := true, limit := some rule.limit,
               remaining := some (max 0 (rule.limit - (count : Int))),
               resetTime := some ((window + 1) * rule.window_seconds) },
             (incrementCounter key rule.window_seconds s).2)) := by
  subst hwindow hkey hcount
  exact ⟨fun hlt => checkRule_denies env rule tenantId ipAddress apiUrl s
      hfail hlt,
    fun hle => checkRule_passes env rule tenantId ipAddress apiUrl s
      hfail hle⟩

/-- Witness for C2: one GENERAL rule with limit 3 and window 30s; the
fourth request of the window (count 4) is denied with remaining 0,
resetTime 30 and the exact denial message. -/
theorem C2_checkRule_limit_witness :
    checkRule ⟨0, false⟩ ⟨.GENERAL, 3, 30, none⟩ "t" "ip" none
        ⟨fun _ => 3, fun _ => none⟩ =
      .ok ({ allowed := false, limit := some 3, remaining := some 0,
             resetTime := some 30,
             message := some "Rate limit exceeded for GENERAL rule. Limit: 3 requests per 30s" },
           (incrementCounter "rate_limit:t:GENERAL:general:0" 30
             ⟨fun _ => 3, fun _ => none⟩).2) := by
  have h := (C2_checkRule_limit ⟨0, false⟩ ⟨.GENERAL, 3, 30, none⟩ "t" "ip"
    none ⟨fun _ => 3, fun _ => none⟩ 0 "rate_limit:t:GENERAL:general:0" 4
    rfl rfl (by decide) (by decide)).1 (by decide)
  exact h

/-- Any allowed result produced by the rule loop is the bare
`{ allowed: true }` record: the loop never propagates a passing rule's
figures (the source returns `{ allowed: true }` after the loop). -/
lemma checkRulesList_allowed_plain (env : Env) (t ip : String)
    (api : Option String) :
    ∀ (l : List RateLimitRule) (s : RedisState) (res : RateLimitResult)
      (s' : RedisState),
      checkRulesList env t ip api l s = .ok (res, s') →
      res.allowed = true → res = { allowed := true } := by
  intro l
  induction l with
  | nil =>
    intro s res s' h _
    simp only [checkRulesList] at h
    cases h
    rfl
  | cons rule rest ih =>
    intro s res s' h ha
    simp only [checkRulesList] at h
    by_cases hskip : skipRule rule api = true
    · rw [if_pos hskip] at h
      exact ih s res s' h ha
    · rw [if_neg hskip] at h
      cases hcr : checkRule env rule t ip api s with
      | error e => rw [hcr] at h; cases h
      | ok p =>
        rw [hcr] at h
        obtain ⟨r0, s0⟩ := p
        dsimp only at h
        by_cases hall : r0.allowed = true
        · rw [if_pos hall] at h
          exact ih s0 res s' h ha
        · rw [if_neg hall] at h
          cases h
          exact absurd ha hall

/-- C1 counterexample: tenant with one GENERAL rule (limit 3, window 30s),
first call of the window. The rule is applicable (not skipped) and passes,
yet the returned decision is the bare `{ allowed: true }`: limit, remaining
and resetTime are all absent, where the claim requires limit 3, remaining 2
and the window's reset time. -/
theorem C1_counterexample :
    skipRule ⟨.GENERAL, 3, 30, none⟩ none = false ∧
    (checkRateLimit ⟨0, false⟩ (.ok [⟨.GENERAL, 3, 30, none⟩]) "t" "ip"
      none freshStore).1 = { allowed := true } ∧
    (checkRateLimit ⟨0, false⟩ (.ok [⟨.GENERAL, 3, 30, none⟩]) "t" "ip"
      none freshStore).1.remaining = none := by
  refine ⟨rfl, ?_, ?_⟩ <;> rfl

/-- C1 (amended): whenever `checkRateLimit` returns an allowed decision —
whether because no rule was applicable or because every applicable rule
passed — the limit, remaining and reset-time figures are absent. -/
theorem C1_allowed_no_figures (env : Env)
    (load : Except String (List RateLimitRule)) (t ip : String)
    (api : Option String) (s : RedisState) (res : RateLimitResult)
    (s' : RedisState)
    (h : checkRateLimit env load t ip api s = (res, s'))
    (ha : res.allowed = true) :
    res.limit = none ∧ res.remaining = none ∧ res.resetTime = none := by
  unfold checkRateLimit at h
  cases hE : checkRateLimitE env load t ip api s with
  | error e =>
    rw [hE] at h
    cases h
    exact ⟨rfl, rfl, rfl⟩
  | ok p =>
    rw [hE] at h
    obtain ⟨r0, s0⟩ := p
    cases h
    unfold checkRateLimitE at hE
    cases load with
    | error e => cases hE
    | ok rules =>
      dsimp only at hE
      by_cases hemp : rules.isEmpty = true
      · rw [if_pos hemp] at hE
        cases hE
        exact ⟨rfl, rfl, rfl⟩
      · rw [if_neg hemp] at hE
        have := checkRulesList_allowed_plain env t ip api
          (orderedRules rules) s _ _ hE ha
        rw [this]
        exact ⟨rfl, rfl, rfl⟩

/-- Witness for C1 (amended): a tenant with no rules gets the bare allowed
decision with all figures absent. -/
theorem C1_allowed_no_figures_witness :
    ({ allowed := true } : RateLimitResult).limit = none ∧
    ({ allowed := true } : RateLimitResult).remaining = none ∧
    ({ allowed := true } : RateLimitResult).resetTime = none :=
  C1_allowed_no_figures ⟨0, false⟩ (.ok []) "t" "ip" none freshStore
    { allowed := true } freshStore rfl rfl

/-- C4 counterexample: when the rule fetch throws, the decision is allowed
but its explanation is `Rate limiter error, allowing request` (capital R),
not the claimed `rate limiter error, allowing request`. -/
theorem C4_counterexample :
    (checkRateLimit ⟨0, false⟩ (.error "db down") "t" "ip" none
      freshStore).1.allowed = true ∧
    (checkRateLimit ⟨0, false⟩ (.error "db down") "t" "ip" none
      freshStore).1.message ≠ some "rate limiter error, allowing request" := by
  constructor
  · rfl
  · decide

/-- C4 (amended): `checkRateLimit` never fails: whenever computing the
decision raises any error (rule fetch failure or counter-store failure),
it returns a Decision with allowed = true and the explanation
`Rate limiter error, allowing request`. -/
theorem C4_fail_open (env : Env)
    (load : Except String (List RateLimitRule)) (t ip : String)
    (api : Option String) (s : RedisState) (e : String)
    (herr : checkRateLimitE env load t ip api s = .error e) :
    checkRateLimit env load t ip api s = (failOpenResult, s) ∧
    failOpenResult.allowed = true ∧
    failOpenResult.message = some "Rate limiter error, allowing request" := by
  unfold checkRateLimit
  rw [herr]
  exact ⟨rfl, rfl, rfl⟩

/-- Witness for C4: a failing rule fetch yields the fail-open decision. -/
theorem C4_fail_open_witness :
    checkRateLimit ⟨0, false⟩ (.error "db down") "t" "ip" none freshStore
      = (failOpenResult, freshStore) ∧
    failOpenResult.allowed = true ∧
    failOpenResult.message = some "Rate limiter error, allowing request" :=
  C4_fail_open ⟨0, false⟩ (.error "db down") "t" "ip" none freshStore
    "db down" rfl

/-- C3: for every rule list, `checkRateLimit` iterates the GENERAL rules
(in stored order), then the IP rules, then the API rules — the stable
per-kind sublists of the stored list in the fixed kind order — and the
loop is characterized step by step on arbitrary lists: a skipped rule
changes nothing, a passing rule threads the store incremented at its own
key into the rest, and a rule whose post-increment count exceeds its limit
ends evaluation at once with that rule's denial figures and message, the
remaining rules never evaluated and no key but that rule's incremented. -/
theorem C3_priority_order (env : Env) (t ip : String) (api : Option String)
    (hfail : env.redisFail = false) :
    (∀ rules : List RateLimitRule,
      orderedRules rules
        = rules.filter (fun r => r.rule_type = RuleType.GENERAL)
          ++ rules.filter (fun r => r.rule_type = RuleType.IP)
          ++ rules.filter (fun r => r.rule_type = RuleType.API)) ∧
    (∀ (rules : List RateLimitRule) (s : RedisState),
      rules.isEmpty = false →
      checkRateLimit env (.ok rules) t ip api s =
        match checkRulesList env t ip api (orderedRules rules) s with
        | .ok r => r
        | .error _ => (failOpenResult, s)) ∧
    (∀ (rule : RateLimitRule) (rest : List RateLimitRule) (s : RedisState),
      skipRule rule api = true →
      checkRulesList env t ip api (rule :: rest) s
        = checkRulesList env t ip api rest s) ∧
    (∀ (rule : RateLimitRule) (rest : List RateLimitRule) (s : RedisState),
      skipRule rule api = false →
      (s.counters (checkRuleKey env t ip api rule) : Int) + 1 ≤ rule.limit →
      checkRulesList env t ip api (rule :: rest) s
        = checkRulesList env t ip api rest
            (incrementCounter (checkRuleKey env t ip api rule)
              rule.window_seconds s).2) ∧
    (∀ (rule : RateLimitRule) (rest : List RateLimitRule) (s : RedisState),
      skipRule rule api = false →
      rule.limit < (s.counters (checkRuleKey env t ip api rule) : Int) + 1 →
      checkRulesList env t ip api (rule :: rest) s =
        .ok ({ allowed := false, limit := some rule.limit,
               remaining := some 0,
               resetTime := some ((getCurrentWindow env.nowMs
                 rule.window_seconds + 1) * rule.window_seconds),
               message := some (exceededMessage rule) },
             (incrementCounter (checkRuleKey env t ip api rule)
               rule.window_seconds s).2) ∧
      (∀ k, k ≠ checkRuleKey env t ip api rule →
        (incrementCounter (checkRuleKey env t ip api rule)
          rule.window_seconds s).2.counters k = s.counters k)) := by
  refine ⟨fun rules => rfl, ?_, ?_, ?_, ?_⟩
  · intro rules s hne
    simp only [checkRateLimit, checkRateLimitE, hne, Bool.false_eq_true,
      if_false]
  · intro rule rest s hskip
    simp only [checkRulesList, hskip, if_true]
  · intro rule rest s hskip hle
    have hcr := checkRule_passes env rule t ip api s hfail
      (by simp only [checkRuleKey] at hle; push_cast; omega)
    simp only [checkRuleKey]
    simp only [checkRulesList, hskip, Bool.false_eq_true, if_false, hcr,
      if_true]
  · intro rule rest s hskip hlt
    have hcr := checkRule_denies env rule t ip api s hfail
      (by simp only [checkRuleKey] at hlt; push_cast; omega)
    constructor
    · simp only [checkRuleKey]
      simp only [checkRulesList, hskip, Bool.false_eq_true, if_false, hcr]
    · intro k hk
      simp [incrementCounter, hk]

/-- Witness for C3: with the stored list holding the IP rule before the
GENERAL rule, the evaluation order puts the GENERAL rule first; that rule,
already at its limit 2, denies with its own figures and message, and the
IP rule's counter is untouched. -/
theorem C3_priority_order_witness :
    orderedRules [⟨.IP, 100, 60, none⟩, ⟨.GENERAL, 2, 30, none⟩]
      = [⟨.GENERAL, 2, 30, none⟩, ⟨.IP, 100, 60, none⟩] ∧
    checkRulesList ⟨0, false⟩ "t" "1.1.1.1" none
      [⟨.GENERAL, 2, 30, none⟩, ⟨.IP, 100, 60, none⟩]
      ⟨fun k => if k = "rate_limit:t:GENERAL:general:0" then 2 else 0,
        fun _ => none⟩ =
      .ok ({ allowed := false, limit := some 2, remaining := some 0,
             resetTime := some 30,
             message := some "Rate limit exceeded for GENERAL rule. Limit: 2 requests per 30s" },
           (incrementCounter "rate_limit:t:GENERAL:general:0" 30
             ⟨fun k => if k = "rate_limit:t:GENERAL:general:0" then 2 else 0,
               fun _ => none⟩).2) ∧
    (incrementCounter "rate_limit:t:GENERAL:general:0" 30
      ⟨fun k => if k = "rate_limit:t:GENERAL:general:0" then 2 else 0,
        fun _ => none⟩).2.counters "rate_limit:t:IP:1.1.1.1:0" = 0 := by
  have h := C3_priority_order ⟨0, false⟩ "t" "1.1.1.1" none rfl
  have hstop := h.2.2.2.2 ⟨.GENERAL, 2, 30, none⟩ [⟨.IP, 100, 60, none⟩]
    ⟨fun k => if k = "rate_limit:t:GENERAL:general:0" then 2 else 0,
      fun _ => none⟩ rfl (by decide)
  have hkey : checkRuleKey ⟨0, false⟩ "t" "1.1.1.1" none
      ⟨.GENERAL, 2, 30, none⟩ = "rate_limit:t:GENERAL:general:0" := rfl
  refine ⟨by decide, hstop.1, ?_⟩
  have := hstop.2 "rate_limit:t:IP:1.1.1.1:0" (by decide)
  rw [hkey] at this
  rw [this]
  decide

/-- C10: an API rule whose api_pattern is null is not skipped when a
(non-empty) target identifier is supplied: the pattern check is bypassed,
the rule's counter — keyed by the supplied target identifier — is
incremented whatever the outcome, and when the count exceeds the limit the
rule denies exactly as if its pattern had matched. -/
theorem C10_null_pattern_api (env : Env) (rule : RateLimitRule)
    (t ip u : String) (s : RedisState) (key : String)
    (hfail : env.redisFail = false) (htype : rule.rule_type = .API)
    (hpat : rule.api_pattern = none) (hu : u ≠ "")
    (hkey : key = redisKey t .API u
      (getCurrentWindow env.nowMs rule.window_seconds)) :
    skipRule rule (some u) = false ∧
    (checkRateLimit env (.ok [rule]) t ip (some u) s).2.counters key
      = s.counters key + 1 ∧
    (rule.limit < (s.counters key : Int) + 1 →
      (checkRateLimit env (.ok [rule]) t ip (some u) s).1 =
        { allowed := false, limit := some rule.limit, remaining := some 0,
          resetTime := some ((getCurrentWindow env.nowMs
            rule.window_seconds + 1) * rule.window_seconds),
          message := some (exceededMessage rule) }) := by
  have hue : u.isEmpty = false := by
    rw [Bool.eq_false_iff]
    intro hemp
    exact hu ((String.isEmpty_iff u).mp hemp)
  have hskip : skipRule rule (some u) = false := by
    simp [skipRule, htype, hpat, optTruthy, hue]
  have hid : ruleIdentifier rule.rule_type ip (some u) = u := by
    simp [ruleIdentifier, htype, hue]
  have hkey' : redisKey t rule.rule_type
      (ruleIdentifier rule.rule_type ip (some u))
      (getCurrentWindow env.nowMs rule.window_seconds) = key := by
    rw [hid, htype, hkey]
  have hord : orderedRules [rule] = [rule] := by
    simp [orderedRules, htype]
  rcases le_or_lt ((s.counters key : Int) + 1) rule.limit with hle | hlt
  · have hcr := checkRule_passes env rule t ip (some u) s hfail
      (by rw [hkey']; push_cast; omega)
    rw [hkey'] at hcr
    have heval : checkRateLimit env (.ok [rule]) t ip (some u) s =
        ({ allowed := true },
         (incrementCounter key rule.window_seconds s).2) := by
      simp only [checkRateLimit, checkRateLimitE, hord, List.isEmpty_cons,
        Bool.false_eq_true, if_false]
      simp only [checkRulesList, hskip, Bool.false_eq_true, if_false, hcr,
        if_true]
    refine ⟨hskip, ?_, ?_⟩
    · rw [heval]
      simp [incrementCounter]
    · intro hlt'
      omega
  · have hcr := checkRule_denies env rule t ip (some u) s hfail
      (by rw [hkey']; push_cast; omega)
    rw [hkey'] at hcr
    have heval : checkRateLimit env (.ok [rule]) t ip (some u) s =
        ({ allowed := false, limit := some rule.limit, remaining := some 0,
           resetTime := some ((getCurrentWindow env.nowMs
             rule.window_seconds + 1) * rule.window_seconds),
           message := some (exceededMessage rule) },
         (incrementCounter key rule.window_seconds s).2) := by
      simp only [checkRateLimit, checkRateLimitE, hord, List.isEmpty_cons,
        Bool.false_eq_true, if_false]
      simp only [checkRulesList, hskip, Bool.false_eq_true, if_false, hcr]
    refine ⟨hskip, ?_, ?_⟩
    · rw [heval]
      simp [incrementCounter]
    · intro _
      rw [heval]

/-- Witness for C10: a null-pattern API rule with limit 1 and one prior
request in the window denies the call `/api/users/42` and its counter is
keyed by that URL. -/
theorem C10_null_pattern_api_witness :
    skipRule ⟨.API, 1, 60, none⟩ (some "/api/users/42") = false ∧
    (checkRateLimit ⟨0, false⟩ (.ok [⟨.API, 1, 60, none⟩]) "t" "ip"
      (some "/api/users/42")
      ⟨fun _ => 1, fun _ => none⟩).2.counters
        "rate_limit:t:API:/api/users/42:0" = 2 ∧
    (checkRateLimit ⟨0, false⟩ (.ok [⟨.API, 1, 60, none⟩]) "t" "ip"
      (some "/api/users/42")
      ⟨fun _ => 1, fun _ => none⟩).1.allowed = false := by
  have h := C10_null_pattern_api ⟨0, false⟩ ⟨.API, 1, 60, none⟩ "t" "ip"
    "/api/users/42" ⟨fun _ => 1, fun _ => none⟩
    "rate_limit:t:API:/api/users/42:0" rfl rfl rfl (by decide) (by decide)
  refine ⟨h.1, h.2.1, ?_⟩
  have := h.2.2 (by decide)
  rw [this]

/-- C7: a lookup while the cached entry's expiry has not yet passed returns
the cached list without consulting the rule store; a missing or expired
entry triggers exactly one fresh fetch, stored with expiry now + 60000 ms;
clearCache empties both maps, so the next lookup for any tenant
refetches. -/
theorem C7_rule_cache (fetch : String → List RateLimitRule) (now : Nat)
    (t : String) (st : CacheState) (e : Nat) (rs : List RateLimitRule) :
    (st.cacheExpiry t = some e → now < e → st.rulesCache t = some rs →
      loadRulesForTenant fetch now t st = (rs, st, false)) ∧
    (st.cacheExpiry t = none →
      loadRulesForTenant fetch now t st =
        (fetch t, refreshedCache fetch now t st, true)) ∧
    (st.cacheExpiry t = some e → e ≤ now →
      loadRulesForTenant fetch now t st =
        (fetch t, refreshedCache fetch now t st, true)) ∧
    (st.rulesCache t = none →
      loadRulesForTenant fetch now t st =
        (fetch t, refreshedCache fetch now t st, true)) ∧
    (refreshedCache fetch now t st).rulesCache t = some (fetch t) ∧
    (refreshedCache fetch now t st).cacheExpiry t = some (now + 60000) ∧
    (∀ t2, (clearCache st).rulesCache t2 = none ∧
      (clearCache st).cacheExpiry t2 = none) ∧
    loadRulesForTenant fetch now t (clearCache st) =
      (fetch t, refreshedCache fetch now t (clearCache st), true) := by
  refine ⟨?_, ?_, ?_, ?_, by simp [refreshedCache], by simp [refreshedCache,
    CACHE_TTL], fun t2 => ⟨rfl, rfl⟩, by simp [loadRulesForTenant,
    clearCache]⟩
  · intro he hlt hrs
    simp [loadRulesForTenant, he, hlt, hrs]
  · intro he
    simp [loadRulesForTenant, he]
  · intro he hle
    simp [loadRulesForTenant, he, Nat.not_lt.mpr hle]
  · intro hrs
    unfold loadRulesForTenant
    cases he : st.cacheExpiry t with
    | none => simp
    | some e2 => simp [hrs]

/-- Witness for C7: a valid entry (expiry 50, now 10) is served from the
cache without a fetch, and after clearCache the same lookup fetches. -/
theorem C7_rule_cache_witness :
    loadRulesForTenant (fun _ => [⟨.GENERAL, 3, 30, none⟩]) 10 "a"
      ⟨fun _ => some [], fun _ => some 50⟩ =
      ([], ⟨fun _ => some [], fun _ => some 50⟩, false) ∧
    loadRulesForTenant (fun _ => [⟨.GENERAL, 3, 30, none⟩]) 10 "a"
      (clearCache ⟨fun _ => some [], fun _ => some 50⟩) =
      ([⟨.GENERAL, 3, 30, none⟩],
       refreshedCache (fun _ => [⟨.GENERAL, 3, 30, none⟩]) 10 "a"
         (clearCache ⟨fun _ => some [], fun _ => some 50⟩), true) := by
  have h := C7_rule_cache (fun _ => [⟨.GENERAL, 3, 30, none⟩]) 10 "a"
    ⟨fun _ => some [], fun _ => some 50⟩ 50 []
  exact ⟨h.1 rfl (by decide) rfl, h.2.2.2.2.2.2.2⟩

/-- C8: every counter increment performed by the evaluator uses exactly the
key `rate_limit:{tenantId}:{ruleKind}:{scopeIdentifier}:{windowIndex}`,
with scope identifier `general` for GENERAL rules, the source address for
IP rules, and the supplied target identifier itself for API rules; keys for
distinct source addresses under the same rule and window differ, so their
counters are independent. -/
theorem C8_key_format (env : Env) (rule : RateLimitRule) (t ip : String)
    (api : Option String) (s : RedisState) (key : String)
    (hfail : env.redisFail = false)
    (hkey : key = redisKey t rule.rule_type
      (ruleIdentifier rule.rule_type ip api)
      (getCurrentWindow env.nowMs rule.window_seconds)) :
    key = "rate_limit:" ++ t ++ ":" ++ ruleTypeStr rule.rule_type ++ ":"
      ++ ruleIdentifier rule.rule_type ip api ++ ":"
      ++ toString (getCurrentWindow env.nowMs rule.window_seconds) ∧
    (∃ res, checkRule env rule t ip api s =
      .ok (res, (incrementCounter key rule.window_seconds s).2)) ∧
    (incrementCounter key rule.window_seconds s).2.counters key
      = s.counters key + 1 ∧
    (∀ k, k ≠ key →
      (incrementCounter key rule.window_seconds s).2.counters k
        = s.counters k) ∧
    (rule.rule_type = .GENERAL →
      ruleIdentifier rule.rule_type ip api = "general") ∧
    (rule.rule_type = .IP → ruleIdentifier rule.rule_type ip api = ip) ∧
    (∀ u, rule.rule_type = .API → api = some u → u ≠ "" →
      ruleIdentifier rule.rule_type ip api = u) ∧
    (∀ ip2 w, ip ≠ ip2 → redisKey t .IP ip w ≠ redisKey t .IP ip2 w) := by
  subst hkey
  refine ⟨rfl, ?_, by simp [incrementCounter],
    fun k hk => by simp [incrementCounter, hk], ?_, ?_, ?_, ?_⟩
  · rcases le_or_lt (((s.counters (redisKey t rule.rule_type
        (ruleIdentifier rule.rule_type ip api)
        (getCurrentWindow env.nowMs rule.window_seconds)) + 1 : Nat) : Int))
        rule.limit with hle | hlt
    · exact ⟨_, checkRule_passes env rule t ip api s hfail hle⟩
    · exact ⟨_, checkRule_denies env rule t ip api s hfail hlt⟩
  · intro h
    simp [ruleIdentifier, h]
  · intro h
    simp [ruleIdentifier, h]
  · intro u h hapi hu
    have hue : u.isEmpty = false := by
      rw [Bool.eq_false_iff]
      intro hemp
      exact hu ((String.isEmpty_iff u).mp hemp)
    simp [ruleIdentifier, h, hapi, hue]
  · intro ip2 w hne heq
    exact hne (redisKey_ip_inj heq)

/-- Witness for C8: an IP rule keyed by the source address, window 0. -/
theorem C8_key_format_witness :
    ("rate_limit:t:IP:1.2.3.4:0" : String) =
      "rate_limit:" ++ "t" ++ ":" ++ ruleTypeStr RuleType.IP ++ ":"
        ++ ruleIdentifier RuleType.IP "1.2.3.4" none ++ ":"
        ++ toString (getCurrentWindow 0 60) ∧
    (incrementCounter "rate_limit:t:IP:1.2.3.4:0" 60 freshStore).2.counters
      "rate_limit:t:IP:1.2.3.4:0"
      = freshStore.counters "rate_limit:t:IP:1.2.3.4:0" + 1 := by
  have h := C8_key_format ⟨0, false⟩ ⟨.IP, 5, 60, none⟩ "t" "1.2.3.4" none
    freshStore "rate_limit:t:IP:1.2.3.4:0" rfl (by decide)
  exact ⟨h.1, h.2.2.1⟩

end RateLimiter
